import Mathlib

/-
Verification of the release-asset upload script (src/scripts/upload-assets.js).

The script is a single async function running in the github-script action
context.  We embed it shallowly: every call to an external collaborator
(the GitHub REST API, the file-system stat/read calls, the glob expander)
is resolved through an `Env` oracle, and the observable effects of the run
(warnings, `core.setFailed` messages, API invocations, `core.setOutput`)
are collected in an event trace.  `core.info` and `core.error` log lines
and the step summary are pure presentation and are not modelled.
Machine-level details (byte buffers read from disk) do not influence any
decision in the script and are elided.
-/

/-- A release asset as returned by the GitHub API (fields the script reads). -/
structure Asset where
  id : Nat
  name : String
  browser_download_url : String
deriving DecidableEq

/-- A release as returned by the GitHub API (fields the script reads).
`draft` records draft status; the script never inspects it, but the
indexed tag lookup of the service excludes drafts, which is why the
fallback listing exists. -/
structure Release where
  id : Nat
  tag_name : String
  name : String
  draft : Bool
  assets : List Asset
deriving DecidableEq

/-- Outcome of `github.rest.repos.getReleaseByTag`: found, a 404 error
(caught and turned into the listing fallback), or any other error
(rethrown by the script). -/
inductive GetByTagResult where
  | found (r : Release)
  | notFound
  | apiError
deriving DecidableEq

/-- Outcome of one `github.rest.repos.uploadReleaseAsset` call: success with
a browser download URL, a 422 already_exists conflict, or any other error. -/
inductive UploadResult where
  | ok (url : String)
  | conflict
  | err
deriving DecidableEq

/-- Oracle for the external collaborators.  `releases` is the full release
list (drafts included) that `listReleases` pages through with page size 100.
`upload p a` is the outcome of uploading the file at path `p` on attempt `a`
(0 = first attempt, 1 = the single delete-and-retry attempt).
`deleteOk i` tells whether `deleteReleaseAsset` on asset id `i` succeeds. -/
structure Env where
  getReleaseByTag : String → GetByTagResult
  releases : List Release
  globMatches : String → List String
  isFile : String → Bool
  upload : String → Nat → UploadResult
  deleteOk : Nat → Bool

/-- Result of `JSON.parse(assetPathsInput)` followed by the shape check:
either a JSON array (modelled with string elements, the only shape the
script meaningfully consumes) or any non-array JSON value. -/
inductive JsonVal where
  | arr (elems : List String)
  | nonArray
deriving DecidableEq

/-- The raw `denyOverwrite` parameter: the github-script boundary may hand
the script a string, a boolean, or nothing at all. -/
inductive RawInput where
  | str (s : String)
  | bool (b : Bool)
  | undef
deriving DecidableEq

/-- The raw inputs of one run.  `parsedAssetPaths` is the outcome of
`JSON.parse` on the asset_paths input (`Except.error m` models the parse
exception with message `m`); JSON parsing itself is a platform primitive
and is not re-implemented here. -/
structure Inputs where
  parsedAssetPaths : Except String JsonVal
  releaseTag : String
  releaseName : String
  denyOverwrite : RawInput
  ref : String

/-- The distinct failure exits of the script, one constructor per
`core.setFailed` site or uncaught-throw site. -/
inductive RunError where
  | parseError
  | badAssetPaths
  | noTagOrName
  | nameMismatch (found expected : String)
  | notFoundTagAndName (tag nm : String)
  | notFoundTag (tag : String)
  | notFoundName (nm : String)
  | noFilesFound
  | assetConflict (fileName : String)
  | inconsistentState (fileName : String)
  | replaceFailed (fileName : String)
  | uploadFailed (fileName : String)
  | transportError (tag : String)
  | jsUndefinedRelease
deriving DecidableEq

/-- Observable events of a run, in order: warnings, `core.setFailed`
messages, remote API invocations and the final `core.setOutput`. -/
inductive Event where
  | warning (msg : String)
  | setFailed (msg : String)
  | setOutput (urls : List String)
  | apiGetByTag (tag : String)
  | apiListReleases (page : Nat)
  | apiUpload (nm : String)
  | apiDelete (assetId : Nat)
deriving DecidableEq

/-- Final outcome of a run: failure carries the error and the download
URLs accumulated before the failure (the JS array exists but is never
emitted on failure), success carries the emitted URL list. -/
inductive RunOutcome where
  | failure (e : RunError) (partialUrls : List String)
  | success (urls : List String)
deriving DecidableEq

/-- JS `String.prototype.trim` (whitespace set modelled by
`Char.isWhitespace`), implemented on the character list so that it is
kernel-computable. -/
def jsTrim (s : String) : String :=
  ⟨((s.data.dropWhile Char.isWhitespace).reverse.dropWhile Char.isWhitespace).reverse⟩

/-- JS `String.prototype.startsWith`, on character lists. -/
def strStartsWith (s p : String) : Bool :=
  p.data.isPrefixOf s.data

/-- `ref.replace('refs/tags/', '')` under the guard that `ref` starts with
the pattern: JS `replace` with a string pattern replaces only the first
occurrence, which under the guard is exactly prefix removal. -/
def tagFromRef (ref : String) : String :=
  ⟨ref.data.drop ("refs/tags/".data.length)⟩

/-- Node `path.basename` for the slash-separated paths the glob expander
returns for regular files (no trailing separators): the last component. -/
def lastComponent : List Char → List Char → List Char
  | [], acc => acc.reverse
  | c :: cs, acc => if c = '/' then lastComponent cs [] else lastComponent cs (c :: acc)

/-- Base name of a file path, see `lastComponent`. -/
def basename (p : String) : String :=
  ⟨lastComponent p.data []⟩

/-- Line 22: `denyOverwrite === 'true' || denyOverwrite === true`. -/
def denyOverwriteBool : RawInput → Bool
  | .str s => s == "true"
  | .bool b => b
  | .undef => false

/-- Message of line 34. -/
def badArrayMsg : String := "asset_paths must be a non-empty JSON array"

/-- Message of line 50. -/
def noTagMsg : String :=
  "No release_tag or release_name provided and workflow not triggered by tag push"

/-- Message of line 207. -/
def noFilesMsg : String := "No files found to upload"

/-- Warning of line 196. -/
def noMatchWarning (pat : String) : String :=
  "No files matched pattern: " ++ pat

/-- Warning of line 250. -/
def overwriteWarning (fileName : String) : String :=
  "Glob wildcard overwriting existing file " ++ fileName

/-- Warning of line 213. -/
def dupWarning (n : Nat) : String :=
  "Removed " ++ toString n ++ " duplicate file(s) from overlapping glob patterns"

/-- Message of line 87. -/
def nameMismatchMsg (found expected : String) : String :=
  "Release name mismatch: found \x27" ++ found ++ "\x27 but expected \x27" ++
    expected ++ "\x27"

/-- Message of line 163. -/
def notFoundBothMsg (tag nm : String) : String :=
  "No release found with tag \x27" ++ tag ++ "\x27 and name \x27" ++ nm ++ "\x27"

/-- Message of line 167. -/
def notFoundTagMsg (tag : String) : String :=
  "No release found with tag \x27" ++ tag ++ "\x27"

/-- Message of line 171. -/
def notFoundNameMsg (nm : String) : String :=
  "No release found with name \x27" ++ nm ++ "\x27"

/-- Message of lines 243-245. -/
def conflictMsg (fileName : String) : String :=
  "Error: Overwriting artifacts is not prohibited ❌\n" ++
    "Asset \x27" ++ fileName ++ "\x27 already exists in this release.\n" ++
    "Set \x27deny_overwrite: false\x27 to allow replacing existing assets."

/-- The matching predicate of lines 124-132: both criteria when both are
non-empty, tag only when only the tag is non-empty, name otherwise. -/
def releaseMatches (targetTag trimmedName : String) (r : Release) : Bool :=
  if targetTag != "" && trimmedName != "" then
    r.tag_name == targetTag && r.name == trimmedName
  else if targetTag != "" then
    r.tag_name == targetTag
  else
    r.name == trimmedName

/-- The `core.setFailed` message of lines 160-174 when the listing is
exhausted without a match. -/
def notFoundMsg (targetTag trimmedName : String) : String :=
  if targetTag != "" && trimmedName != "" then notFoundBothMsg targetTag trimmedName
  else if targetTag != "" then notFoundTagMsg targetTag
  else notFoundNameMsg trimmedName

/-- The error corresponding to `notFoundMsg`. -/
def notFoundError (targetTag trimmedName : String) : RunError :=
  if targetTag != "" && trimmedName != "" then .notFoundTagAndName targetTag trimmedName
  else if targetTag != "" then .notFoundTag targetTag
  else .notFoundName trimmedName

/-- The pagination loop of lines 109-158, modelled on the remaining suffix
of the full release list: page `p` of the API returns
`(releases.drop ((p-1)*100)).take 100`, so after page `p-1` the unseen
suffix is `releases.drop ((p-1)*100)` and fetching the next page takes its
first 100 entries.  The loop stops at the first match or at the first page
shorter than the page size. -/
def searchPages (crit : Release → Bool) (rest : List Release) (page : Nat) :
    List Event × Option Release :=
  match (rest.take 100).find? crit with
  | some r => ([.apiListReleases page], some r)
  | none =>
    if h : (rest.take 100).length < 100 then ([.apiListReleases page], none)
    else
      let r2 := searchPages crit (rest.drop 100) (page + 1)
      (.apiListReleases page :: r2.1, r2.2)
termination_by rest.length
decreasing_by simp only [List.length_take, List.length_drop] at *; omega

/-- Lines 63-176: release resolution.  Given the computed `targetTag` and
trimmed release name, try the indexed lookup when a tag is present (a 404
falls through to the listing), validate the name on an indexed hit, and
otherwise page through all releases.  `Except.ok none` is the fall-through
in which no criterion was active (reachable only when the triggering ref is
exactly `refs/tags/` and both inputs are blank): the JS leaves `release`
undefined there. -/
def resolveRelease (env : Env) (targetTag trimmedName : String) :
    List Event × Except RunError (Option Release) :=
  if targetTag != "" then
    match env.getReleaseByTag targetTag with
    | .found r =>
      if trimmedName != "" && r.name != trimmedName then
        ([.apiGetByTag targetTag, .setFailed (nameMismatchMsg r.name trimmedName)],
         .error (.nameMismatch r.name trimmedName))
      else
        ([.apiGetByTag targetTag], .ok (some r))
    | .apiError =>
      ([.apiGetByTag targetTag], .error (.transportError targetTag))
    | .notFound =>
      let s := searchPages (releaseMatches targetTag trimmedName) env.releases 1
      match s.2 with
      | some r => (.apiGetByTag targetTag :: s.1, .ok (some r))
      | none =>
        (.apiGetByTag targetTag :: s.1 ++
           [.setFailed (notFoundMsg targetTag trimmedName)],
         .error (notFoundError targetTag trimmedName))
  else if trimmedName != "" then
    let s := searchPages (releaseMatches targetTag trimmedName) env.releases 1
    match s.2 with
    | some r => (s.1, .ok (some r))
    | none =>
      (s.1 ++ [.setFailed (notFoundMsg targetTag trimmedName)],
       .error (notFoundError targetTag trimmedName))
  else
    ([], .ok none)

/-- Lines 179-201: expand each pattern, keep only regular files (a stat
that is not a file, e.g. a directory, is dropped), warn on a pattern with
zero file matches, and concatenate in pattern order. -/
def collectFiles (env : Env) (pats : List String) : List Event × List String :=
  match pats with
  | [] => ([], [])
  | pat :: rest =>
    let files := (env.globMatches pat).filter env.isFile
    let r2 := collectFiles env rest
    if files.isEmpty then (.warning (noMatchWarning pat) :: r2.1, r2.2)
    else (r2.1, files ++ r2.2)

/-- Line 204: `[...new Set(filesToUpload)]` — deduplication keeping the
first occurrence of each path, in first-occurrence order (JS `Set`
iterates in insertion order). -/
def jsDedup : List String → List String
  | [] => []
  | x :: xs => x :: jsDedup (xs.filter (fun y => y != x))
termination_by l => l.length
decreasing_by
  simp only [List.length_cons]
  exact Nat.lt_succ_of_le (List.length_filter_le _ _)

/-- Lines 221-287, the body of the upload loop for one file: upload under
the base name; on a 422 already_exists conflict either fail the run
(`denyOverwrite`) or warn, look the asset up in the release snapshot,
delete it and retry the upload exactly once.  A missing snapshot entry, a
failed delete, a failed retry, or any non-conflict upload error is fatal. -/
def fileStep (env : Env) (rel : Release) (denyOW : Bool) (filePath : String) :
    List Event × Except RunError String :=
  let fileName := basename filePath
  match env.upload filePath 0 with
  | .ok url => ([.apiUpload fileName], .ok url)
  | .err => ([.apiUpload fileName], .error (.uploadFailed fileName))
  | .conflict =>
    if denyOW then
      ([.apiUpload fileName, .setFailed (conflictMsg fileName)],
       .error (.assetConflict fileName))
    else
      match rel.assets.find? (fun a => a.name == fileName) with
      | some a =>
        if env.deleteOk a.id then
          match env.upload filePath 1 with
          | .ok url =>
            ([.apiUpload fileName, .warning (overwriteWarning fileName),
              .apiDelete a.id, .apiUpload fileName], .ok url)
          | _ =>
            ([.apiUpload fileName, .warning (overwriteWarning fileName),
              .apiDelete a.id, .apiUpload fileName],
             .error (.replaceFailed fileName))
        else
          ([.apiUpload fileName, .warning (overwriteWarning fileName),
            .apiDelete a.id], .error (.replaceFailed fileName))
      | none =>
        ([.apiUpload fileName, .warning (overwriteWarning fileName)],
         .error (.inconsistentState fileName))

/-- Lines 220-288: the upload loop.  `acc` is the `downloadUrls` array
accumulated so far; the first fatal file aborts the loop. -/
def uploadLoop (env : Env) (rel : Release) (denyOW : Bool) :
    List String → List String → List Event × RunOutcome
  | [], acc => ([], .success acc)
  | f :: rest, acc =>
    let s := fileStep env rel denyOW f
    match s.2 with
    | .ok url =>
      let r2 := uploadLoop env rel denyOW rest (acc ++ [url])
      (s.1 ++ r2.1, r2.2)
    | .error e => (s.1, .failure e acc)

/-- The duplicate-removal warning of lines 211-215, emitted when
deduplication dropped at least one path. -/
def dupEvents (env : Env) (pats : List String) : List Event :=
  if (collectFiles env pats).2.length ≠ (jsDedup (collectFiles env pats).2).length then
    [Event.warning (dupWarning ((collectFiles env pats).2.length -
      (jsDedup (collectFiles env pats).2).length))]
  else []

/-- Lines 179-292: everything after release resolution — collection,
deduplication, the empty check, the duplicate-removal warning, the upload
loop and the final `core.setOutput`.  When `rel?` is `none` (see
`resolveRelease`) the JS dereferences an undefined `release` at the first
upload call, which throws before any API call is made. -/
def runUpload (env : Env) (rel? : Option Release) (denyOW : Bool)
    (pats : List String) : List Event × RunOutcome :=
  if (jsDedup (collectFiles env pats).2).isEmpty then
    ((collectFiles env pats).1 ++ [.setFailed noFilesMsg], .failure .noFilesFound [])
  else
    match rel? with
    | none =>
      ((collectFiles env pats).1 ++ dupEvents env pats, .failure .jsUndefinedRelease [])
    | some rel =>
      match (uploadLoop env rel denyOW (jsDedup (collectFiles env pats).2) []).2 with
      | .success urls =>
        ((collectFiles env pats).1 ++ dupEvents env pats ++
           (uploadLoop env rel denyOW (jsDedup (collectFiles env pats).2) []).1 ++
           [.setOutput urls],
         .success urls)
      | .failure e partialUrls =>
        ((collectFiles env pats).1 ++ dupEvents env pats ++
           (uploadLoop env rel denyOW (jsDedup (collectFiles env pats).2) []).1,
         .failure e partialUrls)

/-- Lines 39-54: the effective target tag — the trimmed input, or the
suffix of a `refs/tags/` triggering ref when the input is blank. -/
def computedTag (inp : Inputs) : String :=
  if jsTrim inp.releaseTag == "" then
    if strStartsWith inp.ref "refs/tags/" then tagFromRef inp.ref else ""
  else jsTrim inp.releaseTag

/-- The whole script (lines 17-303): input parsing and validation, tag
derivation from the triggering ref, release resolution, then
`runUpload`. -/
def runScript (env : Env) (inp : Inputs) : List Event × RunOutcome :=
  match inp.parsedAssetPaths with
  | .error m =>
    ([.setFailed ("Failed to parse asset_paths as JSON: " ++ m)],
     .failure .parseError [])
  | .ok .nonArray => ([.setFailed badArrayMsg], .failure .badAssetPaths [])
  | .ok (.arr pats) =>
    if pats.isEmpty then ([.setFailed badArrayMsg], .failure .badAssetPaths [])
    else
      if jsTrim inp.releaseTag == "" && !(strStartsWith inp.ref "refs/tags/") &&
          jsTrim inp.releaseName == "" then
        ([.setFailed noTagMsg], .failure .noTagOrName [])
      else
        match (resolveRelease env (computedTag inp) (jsTrim inp.releaseName)).2 with
        | .error e =>
          ((resolveRelease env (computedTag inp) (jsTrim inp.releaseName)).1,
           .failure e [])
        | .ok rel? =>
          ((resolveRelease env (computedTag inp) (jsTrim inp.releaseName)).1 ++
             (runUpload env rel? (denyOverwriteBool inp.denyOverwrite) pats).1,
           (runUpload env rel? (denyOverwriteBool inp.denyOverwrite) pats).2)

/-- Errors of the input-parsing phase (the InvalidInput taxonomy class). -/
def isInvalidInput : RunError → Bool
  | .parseError => true
  | .badAssetPaths => true
  | .noTagOrName => true
  | _ => false

/-- The InvalidInput failure condition as the specification states it: the
asset_paths value is not parseable JSON, or parses to something other than
a non-empty array, or no tag is supplied, no name is supplied, and no tag
can be derived from the triggering ref (a ref starting with refs/tags/). -/
def invalidInputCond (inp : Inputs) : Prop :=
  (∃ m, inp.parsedAssetPaths = .error m) ∨
  inp.parsedAssetPaths = .ok .nonArray ∨
  inp.parsedAssetPaths = .ok (.arr []) ∨
  (jsTrim inp.releaseTag = "" ∧ jsTrim inp.releaseName = "" ∧
    strStartsWith inp.ref "refs/tags/" = false)

/-- Remote-service events (API invocations). -/
def Event.isApi : Event → Bool
  | .apiGetByTag _ => true
  | .apiListReleases _ => true
  | .apiUpload _ => true
  | .apiDelete _ => true
  | _ => false

/-- The pagination loop returns exactly the first match of the whole
release list: pages are consecutive chunks, the loop scans them in order
and stops at the first match or the first short page. -/
theorem searchPages_snd (crit : Release → Bool) (rest : List Release) (page : Nat) :
    (searchPages crit rest page).2 = rest.find? crit := by
  induction rest, page using searchPages.induct crit with
  | case1 rest page r h =>
    rw [searchPages]
    simp only [h]
    conv_rhs => rw [← List.take_append_drop 100 rest]
    rw [List.find?_append, h]
    rfl
  | case2 rest page h hlen =>
    rw [searchPages]
    simp only [h]
    rw [dif_pos hlen]
    have hlen' : rest.length ≤ 100 := by
      simp only [List.length_take] at hlen; omega
    have hr : rest.take 100 = rest := List.take_of_length_le hlen'
    rw [← hr, h]
  | case3 rest page h hlen ih =>
    rw [searchPages]
    simp only [h]
    rw [dif_neg hlen]
    conv_rhs => rw [← List.take_append_drop 100 rest]
    rw [List.find?_append, h]
    exact ih

/-- The pagination loop emits only listing calls. -/
theorem searchPages_events (crit : Release → Bool) (rest : List Release) (page : Nat) :
    ∀ e ∈ (searchPages crit rest page).1, ∃ p, e = Event.apiListReleases p := by
  induction rest, page using searchPages.induct crit with
  | case1 rest page r h =>
    rw [searchPages]
    simp only [h]
    intro e he
    simp at he
    exact ⟨page, he⟩
  | case2 rest page h hlen =>
    rw [searchPages]
    simp only [h]
    rw [dif_pos hlen]
    intro e he
    simp at he
    exact ⟨page, he⟩
  | case3 rest page h hlen ih =>
    rw [searchPages]
    simp only [h]
    rw [dif_neg hlen]
    intro e he
    simp only [List.mem_cons] at he
    rcases he with he | he
    · exact ⟨page, he⟩
    · exact ih e he

/-- Membership in the deduplicated list is membership in the original. -/
theorem jsDedup_mem (a : String) (l : List String) : a ∈ jsDedup l ↔ a ∈ l := by
  induction l using jsDedup.induct with
  | case1 => rw [jsDedup]
  | case2 x xs ih =>
    rw [jsDedup]
    simp only [List.mem_cons, ih, List.mem_filter, bne_iff_ne, ne_eq]
    by_cases h : a = x <;> simp [h]

/-- The deduplicated list has no duplicates. -/
theorem jsDedup_nodup (l : List String) : (jsDedup l).Nodup := by
  induction l using jsDedup.induct with
  | case1 => rw [jsDedup]; exact List.nodup_nil
  | case2 x xs ih =>
    rw [jsDedup, List.nodup_cons]
    refine ⟨?_, ih⟩
    intro hmem
    rw [jsDedup_mem] at hmem
    simp [List.mem_filter] at hmem

/-- The deduplicated list is a subsequence of the original. -/
theorem jsDedup_sublist (l : List String) : List.Sublist (jsDedup l) l := by
  induction l using jsDedup.induct with
  | case1 => rw [jsDedup]
  | case2 x xs ih =>
    rw [jsDedup]
    exact List.Sublist.cons₂ x (ih.trans (List.filter_sublist xs))

/-- Deduplication of a list is empty exactly when the list is. -/
theorem jsDedup_eq_nil (l : List String) : jsDedup l = [] ↔ l = [] := by
  cases l with
  | nil => rw [jsDedup]
  | cons x xs => rw [jsDedup]; simp

/-- Relative order of first occurrences is preserved by `filter`. -/
theorem indexOf_filter_lt (p : String → Bool) (l : List String) :
    ∀ a b : String, a ∈ l.filter p → b ∈ l.filter p →
      (l.filter p).indexOf a < (l.filter p).indexOf b →
      l.indexOf a < l.indexOf b := by
  induction l with
  | nil => simp
  | cons x xs ih =>
    intro a b ha hb hlt
    by_cases hpx : p x
    · rw [List.filter_cons_of_pos hpx] at ha hb hlt
      by_cases hax : x = a
      · subst hax
        by_cases hbx : x = b
        · subst hbx
          exact absurd hlt (lt_irrefl _)
        · have hxb : (x == b) = false := by simp [hbx]
          simp only [List.indexOf_cons, beq_self_eq_true, cond_true, hxb, cond_false]
          omega
      · have hxa : (x == a) = false := by simp [hax]
        by_cases hbx : x = b
        · subst hbx
          simp only [List.indexOf_cons, beq_self_eq_true, cond_true, hxa,
            cond_false] at hlt
          omega
        · have hxb : (x == b) = false := by simp [hbx]
          simp only [List.indexOf_cons, hxa, hxb, cond_false] at hlt ⊢
          have ha' : a ∈ xs.filter p := by
            rcases List.mem_cons.1 ha with h | h
            · exact absurd h.symm hax
            · exact h
          have hb' : b ∈ xs.filter p := by
            rcases List.mem_cons.1 hb with h | h
            · exact absurd h.symm hbx
            · exact h
          have := ih a b ha' hb' (by omega)
          omega
    · rw [List.filter_cons_of_neg hpx] at ha hb hlt
      have hax : x ≠ a := by
        intro h; subst h
        exact hpx (List.mem_filter.1 ha).2
      have hbx : x ≠ b := by
        intro h; subst h
        exact hpx (List.mem_filter.1 hb).2
      have hxa : (x == a) = false := by simp [hax]
      have hxb : (x == b) = false := by simp [hbx]
      simp only [List.indexOf_cons, hxa, hxb, cond_false]
      have := ih a b ha hb hlt
      omega

/-- The deduplicated list is ordered by first occurrence in the original
list: any two of its entries compare by their `indexOf` in the input. -/
theorem jsDedup_pairwise (l : List String) :
    (jsDedup l).Pairwise (fun a b => l.indexOf a < l.indexOf b) := by
  induction l using jsDedup.induct with
  | case1 => rw [jsDedup]; exact List.Pairwise.nil
  | case2 x xs ih =>
    rw [jsDedup]
    refine List.Pairwise.cons ?_ ?_
    · intro b hb
      have hb' := (jsDedup_mem b _).1 hb
      rw [List.mem_filter] at hb'
      have hbx : x ≠ b := by
        intro h; subst h; simp at hb'
      have hxb : (x == b) = false := by simp [hbx]
      simp only [List.indexOf_cons, beq_self_eq_true, cond_true, hxb, cond_false]
      omega
    · refine List.Pairwise.imp_of_mem ?_ ih
      intro a b ha hb hlt
      have ha' := (jsDedup_mem a _).1 ha
      have hb' := (jsDedup_mem b _).1 hb
      have hax : x ≠ a := by
        intro h; subst h; simp [List.mem_filter] at ha'
      have hbx : x ≠ b := by
        intro h; subst h; simp [List.mem_filter] at hb'
      have hxa : (x == a) = false := by simp [hax]
      have hxb : (x == b) = false := by simp [hbx]
      have := indexOf_filter_lt (fun y => y != x) xs a b ha' hb' hlt
      simp only [List.indexOf_cons, hxa, hxb, cond_false]
      omega

/-- The collected file list is the concatenation, in pattern order, of the
regular-file matches of each pattern (a zero-match pattern contributes the
empty list, so skipping its push changes nothing). -/
theorem collectFiles_snd (env : Env) (pats : List String) :
    (collectFiles env pats).2 =
      (pats.map (fun pat => (env.globMatches pat).filter env.isFile)).flatten := by
  induction pats with
  | nil => rfl
  | cons pat rest ih =>
    simp only [collectFiles, List.map_cons, List.flatten_cons]
    by_cases hf : ((env.globMatches pat).filter env.isFile).isEmpty
    · rw [if_pos hf]
      have he : (env.globMatches pat).filter env.isFile = [] := List.isEmpty_iff.1 hf
      simp [he, ih]
    · rw [if_neg hf]
      simp [ih]

/-- Every pattern whose expansion contains no regular file is reported with
its own warning in the collection trace. -/
theorem collectFiles_warns (env : Env) (pats : List String) (pat : String)
    (hmem : pat ∈ pats) (hempty : (env.globMatches pat).filter env.isFile = []) :
    Event.warning (noMatchWarning pat) ∈ (collectFiles env pats).1 := by
  induction pats with
  | nil => simp at hmem
  | cons q rest ih =>
    simp only [collectFiles]
    rcases List.mem_cons.1 hmem with h | h
    · subst h
      rw [if_pos (by simp [hempty])]
      exact List.mem_cons_self _ _
    · by_cases hf : ((env.globMatches q).filter env.isFile).isEmpty
      · rw [if_pos hf]
        exact List.mem_cons_of_mem _ (ih h)
      · rw [if_neg hf]
        exact ih h

/-- The collection phase emits only warnings. -/
theorem collectFiles_events (env : Env) (pats : List String) :
    ∀ e ∈ (collectFiles env pats).1, ∃ m, e = Event.warning m := by
  induction pats with
  | nil => simp [collectFiles]
  | cons q rest ih =>
    simp only [collectFiles]
    by_cases hf : ((env.globMatches q).filter env.isFile).isEmpty
    · rw [if_pos hf]
      intro e he
      rcases List.mem_cons.1 he with h | h
      · exact ⟨_, h⟩
      · exact ih e h
    · rw [if_neg hf]
      exact ih

/-- Every event emitted for one file is an upload call, the conflict
`setFailed`, the overwrite warning, or a delete call. -/
theorem fileStep_events_shape (env : Env) (rel : Release) (d : Bool) (f : String) :
    ∀ e ∈ (fileStep env rel d f).1,
      e = Event.apiUpload (basename f) ∨
      e = Event.setFailed (conflictMsg (basename f)) ∨
      e = Event.warning (overwriteWarning (basename f)) ∨
      ∃ i, e = Event.apiDelete i := by
  intro e he
  rw [fileStep] at he
  rcases h0 : env.upload f 0 with url | _ | _ <;> rw [h0] at he
  · simp at he
    exact Or.inl he
  · by_cases hd : d
    · rw [if_pos hd] at he
      simp at he
      tauto
    · rw [if_neg hd] at he
      rcases hfind : rel.assets.find? (fun a => a.name == basename f) with _ | a <;>
        rw [hfind] at he <;> dsimp only at he
      · simp at he
        tauto
      · by_cases hdel : env.deleteOk a.id
        · rw [if_pos hdel] at he
          rcases h1 : env.upload f 1 with url | _ | _ <;> rw [h1] at he <;>
            simp at he <;> tauto
        · rw [if_neg hdel] at he
          simp at he
          tauto
  · simp at he
    exact Or.inl he

/-- The per-file step never fails with an error of another phase. -/
theorem fileStep_error_shape (env : Env) (rel : Release) (d : Bool) (f : String)
    (e : RunError) : (fileStep env rel d f).2 = .error e →
      e = .assetConflict (basename f) ∨ e = .inconsistentState (basename f) ∨
      e = .replaceFailed (basename f) ∨ e = .uploadFailed (basename f) := by
  intro he
  rw [fileStep] at he
  rcases h0 : env.upload f 0 with url | _ | _ <;> rw [h0] at he
  · simp at he
  · by_cases hd : d
    · rw [if_pos hd] at he
      simp at he
      tauto
    · rw [if_neg hd] at he
      rcases hfind : rel.assets.find? (fun a => a.name == basename f) with _ | a <;>
        rw [hfind] at he <;> dsimp only at he
      · simp at he
        tauto
      · by_cases hdel : env.deleteOk a.id
        · rw [if_pos hdel] at he
          rcases h1 : env.upload f 1 with url | _ | _ <;> rw [h1] at he <;>
            simp at he <;> tauto
        · rw [if_neg hdel] at he
          simp at he
          tauto
  · simp at he
    tauto

/-- Every event of the upload loop comes from the step of one of its files. -/
theorem uploadLoop_events_shape (env : Env) (rel : Release) (d : Bool) :
    ∀ (files acc : List String) (e : Event), e ∈ (uploadLoop env rel d files acc).1 →
      ∃ f ∈ files, e ∈ (fileStep env rel d f).1 := by
  intro files
  induction files with
  | nil => intro acc e he; simp [uploadLoop] at he
  | cons f rest ih =>
    intro acc e he
    rw [uploadLoop] at he
    rcases hs : (fileStep env rel d f).2 with e' | url <;> rw [hs] at he
    · exact ⟨f, List.mem_cons_self _ _, he⟩
    · rcases List.mem_append.1 he with h | h
      · exact ⟨f, List.mem_cons_self _ _, h⟩
      · obtain ⟨g, hg, hge⟩ := ih (acc ++ [url]) e h
        exact ⟨g, List.mem_cons_of_mem _ hg, hge⟩

/-- A failing upload loop fails with the error of one of its files. -/
theorem uploadLoop_failure_shape (env : Env) (rel : Release) (d : Bool) :
    ∀ (files acc : List String) (e : RunError) (pu : List String),
      (uploadLoop env rel d files acc).2 = .failure e pu →
      ∃ f ∈ files, (fileStep env rel d f).2 = .error e := by
  intro files
  induction files with
  | nil => intro acc e pu he; simp [uploadLoop] at he
  | cons f rest ih =>
    intro acc e pu he
    rw [uploadLoop] at he
    rcases hs : (fileStep env rel d f).2 with e' | url <;> rw [hs] at he
    · simp at he
      exact ⟨f, List.mem_cons_self _ _, by rw [hs, he.1]⟩
    · obtain ⟨g, hg, hge⟩ := ih (acc ++ [url]) e pu he
      exact ⟨g, List.mem_cons_of_mem _ hg, hge⟩

/-- When every file's step succeeds, the loop succeeds: the trace is the
concatenation of the per-file traces and the URL list extends the
accumulator with one URL per file, in plan order. -/
theorem uploadLoop_allOk (env : Env) (rel : Release) (d : Bool) (u : String → String) :
    ∀ (files acc : List String), (∀ f ∈ files, (fileStep env rel d f).2 = .ok (u f)) →
      uploadLoop env rel d files acc =
        ((files.map (fun f => (fileStep env rel d f).1)).flatten,
         .success (acc ++ files.map u)) := by
  intro files
  induction files with
  | nil => intro acc hok; simp [uploadLoop]
  | cons f rest ih =>
    intro acc hok
    rw [uploadLoop]
    have hs : (fileStep env rel d f).2 = .ok (u f) := hok f (List.mem_cons_self _ _)
    rw [hs]
    dsimp only
    rw [ih (acc ++ [u f]) (fun g hg => hok g (List.mem_cons_of_mem _ hg))]
    simp

/-- A successful loop produced exactly one URL per file, in plan order. -/
theorem uploadLoop_success_shape (env : Env) (rel : Release) (d : Bool) :
    ∀ (files acc urls : List String),
      (uploadLoop env rel d files acc).2 = .success urls →
      ∃ us, List.Forall₂ (fun f url => (fileStep env rel d f).2 = .ok url) files us ∧
        urls = acc ++ us := by
  intro files
  induction files with
  | nil =>
    intro acc urls he
    simp [uploadLoop] at he
    exact ⟨[], List.Forall₂.nil, by simp [he]⟩
  | cons f rest ih =>
    intro acc urls he
    rw [uploadLoop] at he
    rcases hs : (fileStep env rel d f).2 with e' | url <;> rw [hs] at he
    · simp at he
    · obtain ⟨us, hall, hurls⟩ := ih (acc ++ [url]) urls he
      exact ⟨url :: us, List.Forall₂.cons hs hall, by simp [hurls]⟩

/-- The not-found message for both criteria differs from the tag-only one
(it is strictly longer for every tag and name). -/
theorem notFoundMsg_both_ne_tag (t n : String) :
    notFoundBothMsg t n ≠ notFoundTagMsg t := by
  intro h
  have hlen := congrArg String.length h
  simp only [notFoundBothMsg, notFoundTagMsg, String.length_append] at hlen
  have h1 : String.length "\x27 and name \x27" = 12 := by decide
  have h2 : String.length "\x27" = 1 := by decide
  omega

/-- The not-found message for both criteria differs from the name-only one. -/
theorem notFoundMsg_both_ne_name (t n : String) :
    notFoundBothMsg t n ≠ notFoundNameMsg n := by
  intro h
  have hlen := congrArg String.length h
  simp only [notFoundBothMsg, notFoundNameMsg, String.length_append] at hlen
  have h1 : String.length "No release found with tag \x27" = 27 := by decide
  have h2 : String.length "No release found with name \x27" = 28 := by decide
  have h3 : String.length "\x27 and name \x27" = 12 := by decide
  have h4 : String.length "\x27" = 1 := by decide
  omega

/-- The tag-only not-found message differs from the name-only one: they
disagree at character 22 (the word tag versus name). -/
theorem notFoundMsg_tag_ne_name (t n : String) :
    notFoundTagMsg t ≠ notFoundNameMsg n := by
  intro h
  have hl1 : ("No release found with tag \x27".data).length = 27 := by decide
  have hl2 : ("No release found with name \x27".data).length = 28 := by decide
  have e1 : (notFoundTagMsg t).data[22]? = some 't' := by
    rw [notFoundTagMsg, String.data_append, String.data_append]
    rw [List.getElem?_append_left (by rw [List.length_append]; omega),
      List.getElem?_append_left (by omega)]
    decide
  have e2 : (notFoundNameMsg n).data[22]? = some 'n' := by
    rw [notFoundNameMsg, String.data_append, String.data_append]
    rw [List.getElem?_append_left (by rw [List.length_append]; omega),
      List.getElem?_append_left (by omega)]
    decide
  rw [h, e2] at e1
  exact absurd e1 (by decide)

/-- The not-found error value is never an input-parsing error. -/
theorem notFoundError_not_invalid (t n : String) :
    isInvalidInput (notFoundError t n) = false := by
  rw [notFoundError]
  split
  · rfl
  · split <;> rfl

/-- Resolution errors are never input-parsing errors. -/
theorem resolveRelease_error_not_invalid (env : Env) (t n : String) (e : RunError)
    (he : (resolveRelease env t n).2 = .error e) : isInvalidInput e = false := by
  rw [resolveRelease] at he
  by_cases ht : t = ""
  · rw [if_neg (by simp [ht])] at he
    by_cases hn : n = ""
    · rw [if_neg (by simp [hn])] at he
      simp at he
    · rw [if_pos (by simp [hn])] at he
      dsimp only at he
      rcases hs : (searchPages (releaseMatches t n) env.releases 1).2 with _ | r <;>
        rw [hs] at he <;> dsimp only at he
      · simp only [Except.error.injEq] at he
        subst he
        exact notFoundError_not_invalid t n
      · simp at he
  · rw [if_pos (by simp [ht])] at he
    rcases hg : env.getReleaseByTag t with r | _ | _ <;> rw [hg] at he <;>
      dsimp only at he
    · by_cases hm : (n != "" && r.name != n) = true
      · rw [if_pos hm] at he
        dsimp only at he
        simp only [Except.error.injEq] at he
        subst he
        rfl
      · rw [if_neg hm] at he
        simp at he
    · rcases hs : (searchPages (releaseMatches t n) env.releases 1).2 with _ | r <;>
        rw [hs] at he <;> dsimp only at he
      · simp only [Except.error.injEq] at he
        subst he
        exact notFoundError_not_invalid t n
      · simp at he
    · simp only [Except.error.injEq] at he
      subst he
      rfl

/-- The resolver emits only the indexed-lookup call, listing calls and
`setFailed` messages. -/
theorem resolveRelease_events (env : Env) (t n : String) :
    ∀ e ∈ (resolveRelease env t n).1,
      (∃ a, e = Event.apiGetByTag a) ∨ (∃ p, e = Event.apiListReleases p) ∨
      (∃ m, e = Event.setFailed m) := by
  intro e he
  rw [resolveRelease] at he
  by_cases ht : t = ""
  · rw [if_neg (by simp [ht])] at he
    by_cases hn : n = ""
    · rw [if_neg (by simp [hn])] at he
      simp at he
    · rw [if_pos (by simp [hn])] at he
      dsimp only at he
      rcases hs : (searchPages (releaseMatches t n) env.releases 1).2 with _ | r <;>
        rw [hs] at he <;> dsimp only at he
      · rcases List.mem_append.1 he with h | h
        · exact Or.inr (Or.inl (searchPages_events _ _ _ e h))
        · simp at h
          exact Or.inr (Or.inr ⟨_, h⟩)
      · exact Or.inr (Or.inl (searchPages_events _ _ _ e he))
  · rw [if_pos (by simp [ht])] at he
    rcases hg : env.getReleaseByTag t with r | _ | _ <;> rw [hg] at he <;>
      dsimp only at he
    · by_cases hm : (n != "" && r.name != n) = true
      · rw [if_pos hm] at he
        dsimp only at he
        rcases List.mem_cons.1 he with h | h
        · exact Or.inl ⟨_, h⟩
        · simp at h
          exact Or.inr (Or.inr ⟨_, h⟩)
      · rw [if_neg hm] at he
        dsimp only at he
        simp at he
        exact Or.inl ⟨_, he⟩
    · rcases hs : (searchPages (releaseMatches t n) env.releases 1).2 with _ | r <;>
        rw [hs] at he <;> dsimp only at he
      · rcases List.mem_cons.1 he with h | h
        · exact Or.inl ⟨_, h⟩
        · rcases List.mem_append.1 h with h2 | h2
          · exact Or.inr (Or.inl (searchPages_events _ _ _ e h2))
          · simp at h2
            exact Or.inr (Or.inr ⟨_, h2⟩)
      · rcases List.mem_cons.1 he with h | h
        · exact Or.inl ⟨_, h⟩
        · exact Or.inr (Or.inl (searchPages_events _ _ _ e h))
    · simp at he
      exact Or.inl ⟨_, he⟩

/-- Computation of `runUpload` when the deduplicated collection is empty. -/
theorem runUpload_of_empty (env : Env) (rel? : Option Release) (d : Bool)
    (pats : List String)
    (hemp : (jsDedup (collectFiles env pats).2).isEmpty = true) :
    runUpload env rel? d pats =
      ((collectFiles env pats).1 ++ [.setFailed noFilesMsg],
       .failure .noFilesFound []) := by
  rw [runUpload.eq_def, if_pos hemp]

/-- Computation of `runUpload` with an undefined release and a non-empty
collection. -/
theorem runUpload_of_none (env : Env) (d : Bool) (pats : List String)
    (hne : (jsDedup (collectFiles env pats).2).isEmpty = false) :
    runUpload env none d pats =
      ((collectFiles env pats).1 ++ dupEvents env pats,
       .failure .jsUndefinedRelease []) := by
  rw [runUpload.eq_def, if_neg (by simp [hne])]

/-- Computation of `runUpload` when the upload loop fails. -/
theorem runUpload_of_loop_failure (env : Env) (rel : Release) (d : Bool)
    (pats : List String) (e : RunError) (pu : List String)
    (hne : (jsDedup (collectFiles env pats).2).isEmpty = false)
    (hu : (uploadLoop env rel d (jsDedup (collectFiles env pats).2) []).2 =
      .failure e pu) :
    runUpload env (some rel) d pats =
      ((collectFiles env pats).1 ++ dupEvents env pats ++
         (uploadLoop env rel d (jsDedup (collectFiles env pats).2) []).1,
       .failure e pu) := by
  rw [runUpload.eq_def, if_neg (by simp [hne])]
  dsimp only
  rw [hu]

/-- Computation of `runUpload` when the upload loop succeeds. -/
theorem runUpload_of_loop_success (env : Env) (rel : Release) (d : Bool)
    (pats : List String) (urls : List String)
    (hne : (jsDedup (collectFiles env pats).2).isEmpty = false)
    (hu : (uploadLoop env rel d (jsDedup (collectFiles env pats).2) []).2 =
      .success urls) :
    runUpload env (some rel) d pats =
      ((collectFiles env pats).1 ++ dupEvents env pats ++
         (uploadLoop env rel d (jsDedup (collectFiles env pats).2) []).1 ++
         [.setOutput urls],
       .success urls) := by
  rw [runUpload.eq_def, if_neg (by simp [hne])]
  dsimp only
  rw [hu]

/-- The duplicate-removal events are at most one warning. -/
theorem dupEvents_shape (env : Env) (pats : List String) :
    ∀ e ∈ dupEvents env pats, ∃ m, e = Event.warning m := by
  intro e he
  rw [dupEvents] at he
  by_cases hdup :
    (collectFiles env pats).2.length ≠ (jsDedup (collectFiles env pats).2).length
  · rw [if_pos hdup] at he
    simp at he
    exact ⟨_, he⟩
  · rw [if_neg hdup] at he
    simp at he

/-- Failures of the post-resolution phase are never input-parsing errors. -/
theorem runUpload_failure_not_invalid (env : Env) (rel? : Option Release) (d : Bool)
    (pats : List String) (e : RunError) (pu : List String)
    (he : (runUpload env rel? d pats).2 = .failure e pu) : isInvalidInput e = false := by
  by_cases hemp : (jsDedup (collectFiles env pats).2).isEmpty = true
  · rw [runUpload_of_empty env rel? d pats hemp] at he
    injection he with h1 h2
    subst h1
    rfl
  · rw [Bool.not_eq_true] at hemp
    cases rel? with
    | none =>
      rw [runUpload_of_none env d pats hemp] at he
      injection he with h1 h2
      subst h1
      rfl
    | some rel =>
      rcases hu : (uploadLoop env rel d (jsDedup (collectFiles env pats).2) []).2 with
        ⟨e2, pu2⟩ | urls
      · rw [runUpload_of_loop_failure env rel d pats e2 pu2 hemp hu] at he
        injection he with h1 h2
        subst h1
        obtain ⟨f, hf, hstep⟩ :=
          uploadLoop_failure_shape env rel d _ [] e2 pu2 hu
        rcases fileStep_error_shape env rel d f e2 hstep with h | h | h | h <;>
          subst h <;> rfl
      · rw [runUpload_of_loop_success env rel d pats urls hemp hu] at he
        exact absurd he (by simp)

/-- On failure the post-resolution phase never calls `setOutput`. -/
theorem runUpload_failure_no_setOutput (env : Env) (rel? : Option Release) (d : Bool)
    (pats : List String) (e : RunError) (pu : List String) (urls : List String)
    (hfail : (runUpload env rel? d pats).2 = .failure e pu) :
    Event.setOutput urls ∉ (runUpload env rel? d pats).1 := by
  intro hmem
  by_cases hemp : (jsDedup (collectFiles env pats).2).isEmpty = true
  · rw [runUpload_of_empty env rel? d pats hemp] at hmem
    rcases List.mem_append.1 hmem with h | h
    · obtain ⟨m, hm⟩ := collectFiles_events env pats _ h
      simp at hm
    · simp at h
  · rw [Bool.not_eq_true] at hemp
    cases rel? with
    | none =>
      rw [runUpload_of_none env d pats hemp] at hmem
      rcases List.mem_append.1 hmem with h | h
      · obtain ⟨m, hm⟩ := collectFiles_events env pats _ h
        simp at hm
      · obtain ⟨m, hm⟩ := dupEvents_shape env pats _ h
        simp at hm
    | some rel =>
      rcases hu : (uploadLoop env rel d (jsDedup (collectFiles env pats).2) []).2 with
        ⟨e2, pu2⟩ | urls2
      · rw [runUpload_of_loop_failure env rel d pats e2 pu2 hemp hu] at hmem
        rcases List.mem_append.1 hmem with h | h
        · rcases List.mem_append.1 h with h2 | h2
          · obtain ⟨m, hm⟩ := collectFiles_events env pats _ h2
            simp at hm
          · obtain ⟨m, hm⟩ := dupEvents_shape env pats _ h2
            simp at hm
        · obtain ⟨f, hf, hfe⟩ := uploadLoop_events_shape env rel d _ [] _ h
          rcases fileStep_events_shape env rel d f _ hfe with h3 | h3 | h3 | ⟨i, h3⟩ <;>
            simp at h3
      · rw [runUpload_of_loop_success env rel d pats urls2 hemp hu] at hfail
        exact absurd hfail (by simp)

/-- On success the post-resolution phase calls `setOutput` with the URL list. -/
theorem runUpload_success_setOutput (env : Env) (rel? : Option Release) (d : Bool)
    (pats : List String) (urls : List String)
    (hs : (runUpload env rel? d pats).2 = .success urls) :
    Event.setOutput urls ∈ (runUpload env rel? d pats).1 := by
  by_cases hemp : (jsDedup (collectFiles env pats).2).isEmpty = true
  · rw [runUpload_of_empty env rel? d pats hemp] at hs
    exact absurd hs (by simp)
  · rw [Bool.not_eq_true] at hemp
    cases rel? with
    | none =>
      rw [runUpload_of_none env d pats hemp] at hs
      exact absurd hs (by simp)
    | some rel =>
      rcases hu : (uploadLoop env rel d (jsDedup (collectFiles env pats).2) []).2 with
        ⟨e2, pu2⟩ | urls2
      · rw [runUpload_of_loop_failure env rel d pats e2 pu2 hemp hu] at hs
        exact absurd hs (by simp)
      · rw [runUpload_of_loop_success env rel d pats urls2 hemp hu] at hs ⊢
        injection hs with h1
        subst h1
        simp

/-- The resolver never calls `setOutput`. -/
theorem resolveRelease_no_setOutput (env : Env) (t n : String) (urls : List String) :
    Event.setOutput urls ∉ (resolveRelease env t n).1 := by
  intro h
  rcases resolveRelease_events env t n _ h with ⟨_, h2⟩ | ⟨_, h2⟩ | ⟨_, h2⟩ <;>
    simp at h2

/-- Computation of `runScript` on a JSON parse failure. -/
theorem runScript_of_parse_error (env : Env) (inp : Inputs) (m : String)
    (hp : inp.parsedAssetPaths = .error m) :
    runScript env inp =
      ([.setFailed ("Failed to parse asset_paths as JSON: " ++ m)],
       .failure .parseError []) := by
  rw [runScript.eq_def, hp]

/-- Computation of `runScript` on a non-array parse result. -/
theorem runScript_of_nonArray (env : Env) (inp : Inputs)
    (hp : inp.parsedAssetPaths = .ok .nonArray) :
    runScript env inp = ([.setFailed badArrayMsg], .failure .badAssetPaths []) := by
  rw [runScript.eq_def, hp]

/-- Computation of `runScript` on an empty parsed array. -/
theorem runScript_of_empty_arr (env : Env) (inp : Inputs) (pats : List String)
    (hp : inp.parsedAssetPaths = .ok (.arr pats)) (hne : pats.isEmpty = true) :
    runScript env inp = ([.setFailed badArrayMsg], .failure .badAssetPaths []) := by
  rw [runScript.eq_def, hp]
  dsimp only
  rw [if_pos hne]

/-- Computation of `runScript` when neither tag, name, nor tag ref exists. -/
theorem runScript_of_noTag (env : Env) (inp : Inputs) (pats : List String)
    (hp : inp.parsedAssetPaths = .ok (.arr pats)) (hne : pats.isEmpty = false)
    (hcond : (jsTrim inp.releaseTag == "" && !(strStartsWith inp.ref "refs/tags/") &&
      jsTrim inp.releaseName == "") = true) :
    runScript env inp = ([.setFailed noTagMsg], .failure .noTagOrName []) := by
  rw [runScript.eq_def, hp]
  dsimp only
  rw [if_neg (by simp [hne]), if_pos hcond]

/-- Computation of `runScript` when resolution fails. -/
theorem runScript_of_resolve_error (env : Env) (inp : Inputs) (pats : List String)
    (e : RunError)
    (hp : inp.parsedAssetPaths = .ok (.arr pats)) (hne : pats.isEmpty = false)
    (hcond : (jsTrim inp.releaseTag == "" && !(strStartsWith inp.ref "refs/tags/") &&
      jsTrim inp.releaseName == "") = false)
    (hres : (resolveRelease env (computedTag inp) (jsTrim inp.releaseName)).2 =
      .error e) :
    runScript env inp =
      ((resolveRelease env (computedTag inp) (jsTrim inp.releaseName)).1,
       .failure e []) := by
  rw [runScript.eq_def, hp]
  dsimp only
  rw [if_neg (by simp [hne]), if_neg (by simp [hcond]), hres]

/-- Computation of `runScript` when resolution finishes without error. -/
theorem runScript_of_resolve_ok (env : Env) (inp : Inputs) (pats : List String)
    (rel? : Option Release)
    (hp : inp.parsedAssetPaths = .ok (.arr pats)) (hne : pats.isEmpty = false)
    (hcond : (jsTrim inp.releaseTag == "" && !(strStartsWith inp.ref "refs/tags/") &&
      jsTrim inp.releaseName == "") = false)
    (hres : (resolveRelease env (computedTag inp) (jsTrim inp.releaseName)).2 =
      .ok rel?) :
    runScript env inp =
      ((resolveRelease env (computedTag inp) (jsTrim inp.releaseName)).1 ++
         (runUpload env rel? (denyOverwriteBool inp.denyOverwrite) pats).1,
       (runUpload env rel? (denyOverwriteBool inp.denyOverwrite) pats).2) := by
  rw [runScript.eq_def, hp]
  dsimp only
  rw [if_neg (by simp [hne]), if_neg (by simp [hcond]), hres]

/-- C9: for every run that ends in any fatal error (`setFailed` or an
uncaught throw), the `download_urls` output is never set — even when some
files were already uploaded before the failure (the accumulated partial
URL list is discarded); `setOutput` is emitted exactly on the
all-files-succeeded path, with the final URL list. -/
theorem claim9_no_output_on_failure (env : Env) (inp : Inputs) :
    (∀ e pu, (runScript env inp).2 = .failure e pu →
      ∀ urls, Event.setOutput urls ∉ (runScript env inp).1) ∧
    (∀ urls, (runScript env inp).2 = .success urls →
      Event.setOutput urls ∈ (runScript env inp).1) := by
  rcases hp : inp.parsedAssetPaths with m | v
  · rw [runScript_of_parse_error env inp m hp]
    exact ⟨fun e pu hf urls hmem => by simp at hmem, fun urls hs => by simp at hs⟩
  · cases v with
    | nonArray =>
      rw [runScript_of_nonArray env inp hp]
      exact ⟨fun e pu hf urls hmem => by simp at hmem, fun urls hs => by simp at hs⟩
    | arr pats =>
      by_cases hne : pats.isEmpty = true
      · rw [runScript_of_empty_arr env inp pats hp hne]
        exact ⟨fun e pu hf urls hmem => by simp at hmem, fun urls hs => by simp at hs⟩
      · rw [Bool.not_eq_true] at hne
        by_cases hcond : (jsTrim inp.releaseTag == "" &&
            !(strStartsWith inp.ref "refs/tags/") && jsTrim inp.releaseName == "") = true
        · rw [runScript_of_noTag env inp pats hp hne hcond]
          exact ⟨fun e pu hf urls hmem => by simp at hmem, fun urls hs => by simp at hs⟩
        · rw [Bool.not_eq_true] at hcond
          rcases hres : (resolveRelease env (computedTag inp)
              (jsTrim inp.releaseName)).2 with e2 | rel?
          · rw [runScript_of_resolve_error env inp pats e2 hp hne hcond hres]
            constructor
            · intro e pu hf urls hmem
              exact resolveRelease_no_setOutput env _ _ urls hmem
            · intro urls hs
              exact absurd hs (by simp)
          · rw [runScript_of_resolve_ok env inp pats rel? hp hne hcond hres]
            constructor
            · intro e pu hf urls hmem
              dsimp only at hf
              rcases List.mem_append.1 hmem with h | h
              · exact resolveRelease_no_setOutput env _ _ urls h
              · exact runUpload_failure_no_setOutput env rel?
                  (denyOverwriteBool inp.denyOverwrite) pats e pu urls hf h
            · intro urls hs
              dsimp only at hs
              exact List.mem_append.2 (Or.inr (runUpload_success_setOutput env rel?
                (denyOverwriteBool inp.denyOverwrite) pats urls hs))

/-- Witness for C9 at a concrete run: a parse failure sets no output. -/
theorem claim9_witness :
    Event.setOutput ["u"] ∉
      (runScript
        { getReleaseByTag := fun _ => .notFound, releases := [],
          globMatches := fun _ => [], isFile := fun _ => false,
          upload := fun _ _ => .err, deleteOk := fun _ => false }
        { parsedAssetPaths := .error "bad", releaseTag := "", releaseName := "",
          denyOverwrite := .undef, ref := "" }).1 :=
  (claim9_no_output_on_failure _ _).1 RunError.parseError [] (by rfl) ["u"]

/-- C8: the input parser fails with an InvalidInput-class error exactly
when the asset_paths value is not parseable JSON, or parses to something
other than a non-empty array, or no tag is supplied, no name is supplied
and no tag can be derived from the triggering ref; every such failure
happens before any remote service operation is invoked. -/
theorem claim8_invalid_input (env : Env) (inp : Inputs) :
    ((∃ e pu, (runScript env inp).2 = .failure e pu ∧ isInvalidInput e = true) ↔
      invalidInputCond inp) ∧
    (invalidInputCond inp → ∀ e ∈ (runScript env inp).1, e.isApi = false) := by
  rcases hp : inp.parsedAssetPaths with m | v
  · rw [runScript_of_parse_error env inp m hp]
    refine ⟨⟨fun _ => Or.inl ⟨m, hp⟩, fun _ => ⟨.parseError, [], rfl, rfl⟩⟩, ?_⟩
    intro _ e he
    simp at he
    subst he
    rfl
  · cases v with
    | nonArray =>
      rw [runScript_of_nonArray env inp hp]
      refine ⟨⟨fun _ => Or.inr (Or.inl hp), fun _ => ⟨.badAssetPaths, [], rfl, rfl⟩⟩, ?_⟩
      intro _ e he
      simp at he
      subst he
      rfl
    | arr pats =>
      by_cases hne : pats.isEmpty = true
      · have hnil : pats = [] := List.isEmpty_iff.1 hne
        subst hnil
        rw [runScript_of_empty_arr env inp [] hp hne]
        refine ⟨⟨fun _ => Or.inr (Or.inr (Or.inl hp)),
          fun _ => ⟨.badAssetPaths, [], rfl, rfl⟩⟩, ?_⟩
        intro _ e he
        simp at he
        subst he
        rfl
      · rw [Bool.not_eq_true] at hne
        by_cases hcond : (jsTrim inp.releaseTag == "" &&
            !(strStartsWith inp.ref "refs/tags/") && jsTrim inp.releaseName == "") = true
        · rw [runScript_of_noTag env inp pats hp hne hcond]
          have hdecomp : jsTrim inp.releaseTag = "" ∧ jsTrim inp.releaseName = "" ∧
              strStartsWith inp.ref "refs/tags/" = false := by
            simp only [Bool.and_eq_true, beq_iff_eq, Bool.not_eq_true',
              Bool.not_eq_true] at hcond
            tauto
          refine ⟨⟨fun _ => Or.inr (Or.inr (Or.inr hdecomp)),
            fun _ => ⟨.noTagOrName, [], rfl, rfl⟩⟩, ?_⟩
          intro _ e he
          simp at he
          subst he
          rfl
        · rw [Bool.not_eq_true] at hcond
          have hnotcond : ¬ invalidInputCond inp := by
            intro hinv
            rcases hinv with ⟨m, hm⟩ | hm | hm | ⟨h1, h2, h3⟩
            · rw [hp] at hm
              simp at hm
            · rw [hp] at hm
              simp at hm
            · rw [hp] at hm
              simp at hm
              subst hm
              simp at hne
            · rw [h1, h2, h3] at hcond
              simp at hcond
          have hnoinv : ¬ ∃ e pu, (runScript env inp).2 = .failure e pu ∧
              isInvalidInput e = true := by
            rintro ⟨e, pu, hf, hinv⟩
            rcases hres : (resolveRelease env (computedTag inp)
                (jsTrim inp.releaseName)).2 with e2 | rel?
            · rw [runScript_of_resolve_error env inp pats e2 hp hne hcond hres] at hf
              dsimp only at hf
              injection hf with h1 h2
              rw [← h1] at hinv
              rw [resolveRelease_error_not_invalid env _ _ e2 hres] at hinv
              exact absurd hinv (by simp)
            · rw [runScript_of_resolve_ok env inp pats rel? hp hne hcond hres] at hf
              dsimp only at hf
              rw [runUpload_failure_not_invalid env rel?
                (denyOverwriteBool inp.denyOverwrite) pats e pu hf] at hinv
              exact absurd hinv (by simp)
          exact ⟨iff_of_false hnoinv hnotcond,
            fun hinv => absurd hinv hnotcond⟩

/-- Witness for C8 at a concrete input: a blank tag, blank name and a
non-tag ref make the run fail with an InvalidInput error, with no API
event in the trace. -/
theorem claim8_witness :
    ((∃ e pu,
        (runScript
          { getReleaseByTag := fun _ => .notFound, releases := [],
            globMatches := fun _ => [], isFile := fun _ => false,
            upload := fun _ _ => .err, deleteOk := fun _ => false }
          { parsedAssetPaths := .ok (.arr ["dist/*"]), releaseTag := "",
            releaseName := "", denyOverwrite := .undef,
            ref := "refs/heads/main" }).2 = .failure e pu ∧
        isInvalidInput e = true) ↔
      invalidInputCond
        { parsedAssetPaths := .ok (.arr ["dist/*"]), releaseTag := "",
          releaseName := "", denyOverwrite := .undef,
          ref := "refs/heads/main" }) ∧
    (invalidInputCond
        { parsedAssetPaths := .ok (.arr ["dist/*"]), releaseTag := "",
          releaseName := "", denyOverwrite := .undef,
          ref := "refs/heads/main" } →
      ∀ e ∈ (runScript
          { getReleaseByTag := fun _ => .notFound, releases := [],
            globMatches := fun _ => [], isFile := fun _ => false,
            upload := fun _ _ => .err, deleteOk := fun _ => false }
          { parsedAssetPaths := .ok (.arr ["dist/*"]), releaseTag := "",
            releaseName := "", denyOverwrite := .undef,
            ref := "refs/heads/main" }).1, e.isApi = false) :=
  claim8_invalid_input _ _

/-- C1: whenever the indexed tag lookup reports not-found (or no tag was
supplied but a criterion exists), the resolver scans the full release list
— drafts included, since the matching predicate ignores draft status — in
list order via the fixed-size pagination loop and returns the first match
of the active criterion; if no release matches it fails with the not-found
error for the active criterion, emitting a `setFailed` message that
distinguishes tag-only, name-only and tag-and-name, the three messages
being pairwise distinct. -/
theorem claim1_resolver_fallback (env : Env) (targetTag trimmedName : String)
    (hmiss : targetTag = "" ∨ env.getReleaseByTag targetTag = .notFound)
    (hcrit : targetTag ≠ "" ∨ trimmedName ≠ "") :
    (∀ r, env.releases.find? (releaseMatches targetTag trimmedName) = some r →
      (resolveRelease env targetTag trimmedName).2 = .ok (some r)) ∧
    (env.releases.find? (releaseMatches targetTag trimmedName) = none →
      (resolveRelease env targetTag trimmedName).2 =
        .error (notFoundError targetTag trimmedName) ∧
      Event.setFailed (notFoundMsg targetTag trimmedName) ∈
        (resolveRelease env targetTag trimmedName).1) ∧
    (∀ (r : Release) (b : Bool),
      releaseMatches targetTag trimmedName { r with draft := b } =
        releaseMatches targetTag trimmedName r) ∧
    (∀ t n : String, notFoundBothMsg t n ≠ notFoundTagMsg t ∧
      notFoundBothMsg t n ≠ notFoundNameMsg n ∧
      notFoundTagMsg t ≠ notFoundNameMsg n) := by
  refine ⟨?_, ?_, fun r b => rfl,
    fun t n => ⟨notFoundMsg_both_ne_tag t n, notFoundMsg_both_ne_name t n,
      notFoundMsg_tag_ne_name t n⟩⟩
  · intro r hfind
    rw [resolveRelease]
    by_cases ht : targetTag = ""
    · have hn : trimmedName ≠ "" := by
        rcases hcrit with h | h
        · exact absurd ht h
        · exact h
      rw [if_neg (by simp [ht]), if_pos (by simp [hn])]
      dsimp only
      have hs : (searchPages (releaseMatches targetTag trimmedName)
          env.releases 1).2 = some r := by
        rw [searchPages_snd, hfind]
      rw [hs]
    · rcases hmiss with h | h
      · exact absurd h ht
      · rw [if_pos (by simp [ht]), h]
        dsimp only
        have hs : (searchPages (releaseMatches targetTag trimmedName)
            env.releases 1).2 = some r := by
          rw [searchPages_snd, hfind]
        rw [hs]
  · intro hfind
    rw [resolveRelease]
    by_cases ht : targetTag = ""
    · have hn : trimmedName ≠ "" := by
        rcases hcrit with h | h
        · exact absurd ht h
        · exact h
      rw [if_neg (by simp [ht]), if_pos (by simp [hn])]
      dsimp only
      have hs : (searchPages (releaseMatches targetTag trimmedName)
          env.releases 1).2 = none := by
        rw [searchPages_snd, hfind]
      rw [hs]
      exact ⟨rfl, by simp⟩
    · rcases hmiss with h | h
      · exact absurd h ht
      · rw [if_pos (by simp [ht]), h]
        dsimp only
        have hs : (searchPages (releaseMatches targetTag trimmedName)
            env.releases 1).2 = none := by
          rw [searchPages_snd, hfind]
        rw [hs]
        exact ⟨rfl, by simp⟩

/-- Witness for C1: the indexed lookup misses a draft release carrying the
requested tag, and the fallback listing finds it. -/
theorem claim1_witness :
    (∀ r, (Env.mk (fun _ => .notFound)
        [⟨7, "v1.0.0", "Rel one", true, []⟩]
        (fun _ => []) (fun _ => false) (fun _ _ => .err) (fun _ => false)).releases.find?
          (releaseMatches "v1.0.0" "") = some r →
      (resolveRelease (Env.mk (fun _ => .notFound)
        [⟨7, "v1.0.0", "Rel one", true, []⟩]
        (fun _ => []) (fun _ => false) (fun _ _ => .err) (fun _ => false))
        "v1.0.0" "").2 = .ok (some r)) ∧
    ((Env.mk (fun _ => .notFound)
        [⟨7, "v1.0.0", "Rel one", true, []⟩]
        (fun _ => []) (fun _ => false) (fun _ _ => .err) (fun _ => false)).releases.find?
          (releaseMatches "v1.0.0" "") = none →
      (resolveRelease (Env.mk (fun _ => .notFound)
        [⟨7, "v1.0.0", "Rel one", true, []⟩]
        (fun _ => []) (fun _ => false) (fun _ _ => .err) (fun _ => false))
        "v1.0.0" "").2 = .error (notFoundError "v1.0.0" "") ∧
      Event.setFailed (notFoundMsg "v1.0.0" "") ∈
        (resolveRelease (Env.mk (fun _ => .notFound)
          [⟨7, "v1.0.0", "Rel one", true, []⟩]
          (fun _ => []) (fun _ => false) (fun _ _ => .err) (fun _ => false))
          "v1.0.0" "").1) ∧
    (∀ (r : Release) (b : Bool),
      releaseMatches "v1.0.0" "" { r with draft := b } =
        releaseMatches "v1.0.0" "" r) ∧
    (∀ t n : String, notFoundBothMsg t n ≠ notFoundTagMsg t ∧
      notFoundBothMsg t n ≠ notFoundNameMsg n ∧
      notFoundTagMsg t ≠ notFoundNameMsg n) :=
  claim1_resolver_fallback _ "v1.0.0" "" (Or.inr rfl) (Or.inl (by decide))

/-- C4: when the indexed lookup finds a release by tag and a name was also
supplied but differs, resolution fails with the name-mismatch error — an
error distinct from every not-found error — and performs no listing call,
regardless of what the release listing contains (in particular even when
it holds a same-tag release with the requested name). -/
theorem claim4_name_mismatch (env : Env) (targetTag trimmedName : String)
    (r : Release) (ht : targetTag ≠ "") (hn : trimmedName ≠ "")
    (hfound : env.getReleaseByTag targetTag = .found r)
    (hne : r.name ≠ trimmedName) :
    (resolveRelease env targetTag trimmedName).2 =
      .error (.nameMismatch r.name trimmedName) ∧
    (resolveRelease env targetTag trimmedName).1 =
      [.apiGetByTag targetTag, .setFailed (nameMismatchMsg r.name trimmedName)] ∧
    (∀ p, Event.apiListReleases p ∉ (resolveRelease env targetTag trimmedName).1) ∧
    (∀ t n : String, RunError.nameMismatch r.name trimmedName ≠ notFoundError t n) := by
  have hmain : resolveRelease env targetTag trimmedName =
      ([.apiGetByTag targetTag, .setFailed (nameMismatchMsg r.name trimmedName)],
       .error (.nameMismatch r.name trimmedName)) := by
    rw [resolveRelease, if_pos (by simp [ht]), hfound]
    dsimp only
    rw [if_pos (by simp [hn, hne])]
  refine ⟨by rw [hmain], by rw [hmain], ?_, ?_⟩
  · intro p hmem
    rw [hmain] at hmem
    simp at hmem
  · intro t n
    rw [notFoundError]
    split
    · simp
    · split <;> simp

/-- Witness for C4: the indexed lookup finds the tag with name Good Name
while Bad Name was requested, and the listing even contains a same-tag
release named Bad Name; the run still fails with the mismatch error and
never lists. -/
theorem claim4_witness :
    (resolveRelease (Env.mk
        (fun _ => .found ⟨1, "v1.0.0", "Good Name", false, []⟩)
        [⟨2, "v1.0.0", "Bad Name", false, []⟩]
        (fun _ => []) (fun _ => false) (fun _ _ => .err) (fun _ => false))
        "v1.0.0" "Bad Name").2 =
      .error (.nameMismatch "Good Name" "Bad Name") ∧
    (resolveRelease (Env.mk
        (fun _ => .found ⟨1, "v1.0.0", "Good Name", false, []⟩)
        [⟨2, "v1.0.0", "Bad Name", false, []⟩]
        (fun _ => []) (fun _ => false) (fun _ _ => .err) (fun _ => false))
        "v1.0.0" "Bad Name").1 =
      [.apiGetByTag "v1.0.0", .setFailed (nameMismatchMsg "Good Name" "Bad Name")] ∧
    (∀ p, Event.apiListReleases p ∉
      (resolveRelease (Env.mk
        (fun _ => .found ⟨1, "v1.0.0", "Good Name", false, []⟩)
        [⟨2, "v1.0.0", "Bad Name", false, []⟩]
        (fun _ => []) (fun _ => false) (fun _ _ => .err) (fun _ => false))
        "v1.0.0" "Bad Name").1) ∧
    (∀ t n : String,
      RunError.nameMismatch "Good Name" "Bad Name" ≠ notFoundError t n) :=
  claim4_name_mismatch _ "v1.0.0" "Bad Name" ⟨1, "v1.0.0", "Good Name", false, []⟩
    (by decide) (by decide) rfl (by decide)

/-- C5: for every non-empty pattern array the collector output (the
deduplicated upload plan) has no duplicate full paths, contains only
regular files (every matched directory is excluded), and is the
pattern-order concatenation of the per-pattern file matches deduplicated
preserving first-occurrence order (same membership, ordered by first
occurrence in the concatenation). -/
theorem claim5_collector_dedup (env : Env) (pats : List String) (hne : pats ≠ []) :
    (collectFiles env pats).2 =
      (pats.map (fun pat => (env.globMatches pat).filter env.isFile)).flatten ∧
    (jsDedup (collectFiles env pats).2).Nodup ∧
    (∀ p ∈ jsDedup (collectFiles env pats).2, env.isFile p = true) ∧
    (∀ p, p ∈ jsDedup (collectFiles env pats).2 ↔ p ∈ (collectFiles env pats).2) ∧
    (jsDedup (collectFiles env pats).2).Pairwise
      (fun a b => (collectFiles env pats).2.indexOf a <
        (collectFiles env pats).2.indexOf b) := by
  refine ⟨collectFiles_snd env pats, jsDedup_nodup _, ?_,
    fun p => jsDedup_mem p _, jsDedup_pairwise _⟩
  intro p hp
  have hp2 := (jsDedup_mem p _).1 hp
  rw [collectFiles_snd] at hp2
  obtain ⟨l, hl, hpl⟩ := List.mem_flatten.1 hp2
  obtain ⟨pat, hpat, rfl⟩ := List.mem_map.1 hl
  exact (List.mem_filter.1 hpl).2

/-- Witness for C5: two overlapping patterns, one directory match. -/
theorem claim5_witness :
    (collectFiles (Env.mk (fun _ => .notFound) []
        (fun pat => if pat = "a" then ["dir", "x", "y", "x"] else ["y"])
        (fun p => p != "dir") (fun _ _ => .err) (fun _ => false)) ["a", "b"]).2 =
      ((["a", "b"].map (fun pat =>
        ((Env.mk (fun _ => .notFound) []
          (fun pat => if pat = "a" then ["dir", "x", "y", "x"] else ["y"])
          (fun p => p != "dir") (fun _ _ => .err) (fun _ => false)).globMatches
            pat).filter
          (Env.mk (fun _ => .notFound) []
            (fun pat => if pat = "a" then ["dir", "x", "y", "x"] else ["y"])
            (fun p => p != "dir") (fun _ _ => .err) (fun _ => false)).isFile)).flatten) ∧
    (jsDedup (collectFiles (Env.mk (fun _ => .notFound) []
        (fun pat => if pat = "a" then ["dir", "x", "y", "x"] else ["y"])
        (fun p => p != "dir") (fun _ _ => .err) (fun _ => false)) ["a", "b"]).2).Nodup ∧
    (∀ p ∈ jsDedup (collectFiles (Env.mk (fun _ => .notFound) []
        (fun pat => if pat = "a" then ["dir", "x", "y", "x"] else ["y"])
        (fun p => p != "dir") (fun _ _ => .err) (fun _ => false)) ["a", "b"]).2,
      (Env.mk (fun _ => .notFound) []
        (fun pat => if pat = "a" then ["dir", "x", "y", "x"] else ["y"])
        (fun p => p != "dir") (fun _ _ => .err) (fun _ => false)).isFile p = true) ∧
    (∀ p, p ∈ jsDedup (collectFiles (Env.mk (fun _ => .notFound) []
        (fun pat => if pat = "a" then ["dir", "x", "y", "x"] else ["y"])
        (fun p => p != "dir") (fun _ _ => .err) (fun _ => false)) ["a", "b"]).2 ↔
      p ∈ (collectFiles (Env.mk (fun _ => .notFound) []
        (fun pat => if pat = "a" then ["dir", "x", "y", "x"] else ["y"])
        (fun p => p != "dir") (fun _ _ => .err) (fun _ => false)) ["a", "b"]).2) ∧
    (jsDedup (collectFiles (Env.mk (fun _ => .notFound) []
        (fun pat => if pat = "a" then ["dir", "x", "y", "x"] else ["y"])
        (fun p => p != "dir") (fun _ _ => .err) (fun _ => false)) ["a", "b"]).2).Pairwise
      (fun a b =>
        (collectFiles (Env.mk (fun _ => .notFound) []
          (fun pat => if pat = "a" then ["dir", "x", "y", "x"] else ["y"])
          (fun p => p != "dir") (fun _ _ => .err) (fun _ => false)) ["a", "b"]).2.indexOf a <
        (collectFiles (Env.mk (fun _ => .notFound) []
          (fun pat => if pat = "a" then ["dir", "x", "y", "x"] else ["y"])
          (fun p => p != "dir") (fun _ _ => .err) (fun _ => false)) ["a", "b"]).2.indexOf b) :=
  claim5_collector_dedup _ ["a", "b"] (by decide)

/-- C7: the post-resolution phase fails with NoFilesFound exactly when the
deduplicated collection is empty, which happens exactly when every pattern
matched zero regular files; on that failure the output is not set, and in
every case each zero-match pattern is individually reported with its own
non-fatal warning (so the failure is raised only after all patterns were
attempted). -/
theorem claim7_no_files_found (env : Env) (rel? : Option Release) (d : Bool)
    (pats : List String) :
    ((∃ pu, (runUpload env rel? d pats).2 = .failure .noFilesFound pu) ↔
      jsDedup (collectFiles env pats).2 = []) ∧
    (jsDedup (collectFiles env pats).2 = [] ↔ (collectFiles env pats).2 = []) ∧
    (jsDedup (collectFiles env pats).2 = [] →
      ∀ urls, Event.setOutput urls ∉ (runUpload env rel? d pats).1) ∧
    (∀ pat ∈ pats, (env.globMatches pat).filter env.isFile = [] →
      Event.warning (noMatchWarning pat) ∈ (runUpload env rel? d pats).1) := by
  have hsub : ∀ e ∈ (collectFiles env pats).1, e ∈ (runUpload env rel? d pats).1 := by
    intro e he
    by_cases hemp : (jsDedup (collectFiles env pats).2).isEmpty = true
    · rw [runUpload_of_empty env rel? d pats hemp]
      exact List.mem_append_left _ he
    · rw [Bool.not_eq_true] at hemp
      cases rel? with
      | none =>
        rw [runUpload_of_none env d pats hemp]
        exact List.mem_append_left _ he
      | some rel =>
        rcases hu : (uploadLoop env rel d (jsDedup (collectFiles env pats).2) []).2 with
          ⟨e2, pu2⟩ | urls
        · rw [runUpload_of_loop_failure env rel d pats e2 pu2 hemp hu]
          exact List.mem_append_left _ (List.mem_append_left _ he)
        · rw [runUpload_of_loop_success env rel d pats urls hemp hu]
          exact List.mem_append_left _
            (List.mem_append_left _ (List.mem_append_left _ he))
  refine ⟨⟨?_, ?_⟩, jsDedup_eq_nil _, ?_, ?_⟩
  · rintro ⟨pu, hfail⟩
    by_cases hemp : (jsDedup (collectFiles env pats).2).isEmpty = true
    · exact List.isEmpty_iff.1 hemp
    · rw [Bool.not_eq_true] at hemp
      exfalso
      cases rel? with
      | none =>
        rw [runUpload_of_none env d pats hemp] at hfail
        injection hfail with h1 h2
        exact absurd h1 (by simp)
      | some rel =>
        rcases hu : (uploadLoop env rel d (jsDedup (collectFiles env pats).2) []).2 with
          ⟨e2, pu2⟩ | urls
        · rw [runUpload_of_loop_failure env rel d pats e2 pu2 hemp hu] at hfail
          injection hfail with h1 h2
          obtain ⟨f, hf, hstep⟩ :=
            uploadLoop_failure_shape env rel d _ [] e2 pu2 hu
          rcases fileStep_error_shape env rel d f e2 hstep with h | h | h | h <;>
            rw [h] at h1 <;> exact absurd h1 (by simp)
        · rw [runUpload_of_loop_success env rel d pats urls hemp hu] at hfail
          exact absurd hfail (by simp)
  · intro hnil
    exact ⟨[], by
      rw [runUpload_of_empty env rel? d pats (by simp [hnil])]⟩
  · intro hnil urls hmem
    rw [runUpload_of_empty env rel? d pats (by simp [hnil])] at hmem
    rcases List.mem_append.1 hmem with h | h
    · obtain ⟨m, hm⟩ := collectFiles_events env pats _ h
      simp at hm
    · simp at h
  · intro pat hpat hempty
    exact hsub _ (collectFiles_warns env pats pat hpat hempty)

/-- Witness for C7: a single zero-match pattern fails the phase with
NoFilesFound, warns for the pattern and sets no output. -/
theorem claim7_witness :
    ((∃ pu, (runUpload (Env.mk (fun _ => .notFound) [] (fun _ => [])
        (fun _ => false) (fun _ _ => .err) (fun _ => false)) none false
        ["missing/*.zip"]).2 = .failure .noFilesFound pu) ↔
      jsDedup (collectFiles (Env.mk (fun _ => .notFound) [] (fun _ => [])
        (fun _ => false) (fun _ _ => .err) (fun _ => false)) ["missing/*.zip"]).2 = []) ∧
    (jsDedup (collectFiles (Env.mk (fun _ => .notFound) [] (fun _ => [])
        (fun _ => false) (fun _ _ => .err) (fun _ => false)) ["missing/*.zip"]).2 = [] ↔
      (collectFiles (Env.mk (fun _ => .notFound) [] (fun _ => [])
        (fun _ => false) (fun _ _ => .err) (fun _ => false)) ["missing/*.zip"]).2 = []) ∧
    (jsDedup (collectFiles (Env.mk (fun _ => .notFound) [] (fun _ => [])
        (fun _ => false) (fun _ _ => .err) (fun _ => false)) ["missing/*.zip"]).2 = [] →
      ∀ urls, Event.setOutput urls ∉
        (runUpload (Env.mk (fun _ => .notFound) [] (fun _ => [])
          (fun _ => false) (fun _ _ => .err) (fun _ => false)) none false
          ["missing/*.zip"]).1) ∧
    (∀ pat ∈ ["missing/*.zip"],
      ((Env.mk (fun _ => .notFound) [] (fun _ => [])
        (fun _ => false) (fun _ _ => .err) (fun _ => false) : Env).globMatches
          pat).filter
        (Env.mk (fun _ => .notFound) [] (fun _ => [])
          (fun _ => false) (fun _ _ => .err) (fun _ => false) : Env).isFile = [] →
      Event.warning (noMatchWarning pat) ∈
        (runUpload (Env.mk (fun _ => .notFound) [] (fun _ => [])
          (fun _ => false) (fun _ _ => .err) (fun _ => false)) none false
          ["missing/*.zip"]).1) :=
  claim7_no_files_found _ none false ["missing/*.zip"]

/-- C2: with overwrite denial on, a name-already-exists conflict on a file
makes the whole upload loop stop at once with the AssetConflict error whose
message names the offending file: the trace ends right after the failing
upload call and the `setFailed`, so no later file of the plan is attempted
and no URL beyond those already accumulated is appended. -/
theorem claim2_deny_overwrite_aborts (env : Env) (rel : Release)
    (f : String) (rest acc : List String)
    (hc : env.upload f 0 = .conflict) :
    uploadLoop env rel true (f :: rest) acc =
      ([.apiUpload (basename f), .setFailed (conflictMsg (basename f))],
       .failure (.assetConflict (basename f)) acc) ∧
    ∃ s₁ s₂, conflictMsg (basename f) = s₁ ++ (basename f ++ s₂) := by
  constructor
  · have hstep : fileStep env rel true f =
        ([.apiUpload (basename f), .setFailed (conflictMsg (basename f))],
         .error (.assetConflict (basename f))) := by
      rw [fileStep, hc]
      rfl
    rw [uploadLoop]
    rw [hstep]
  · refine ⟨"Error: Overwriting artifacts is not prohibited ❌\n" ++ "Asset \x27",
      "\x27 already exists in this release.\n" ++
        "Set \x27deny_overwrite: false\x27 to allow replacing existing assets.", ?_⟩
    simp only [conflictMsg, String.append_assoc]

/-- Witness for C2: two files are planned, the first conflicts under
denial; the loop fails with AssetConflict for it and the second file is
never attempted. -/
theorem claim2_witness :
    uploadLoop (Env.mk (fun _ => .notFound) [] (fun _ => [])
        (fun _ => true) (fun _ _ => .conflict) (fun _ => false))
      ⟨1, "v1", "R", false, []⟩ true ["dist/a.tar.gz", "dist/b.tar.gz"] [] =
      ([.apiUpload (basename "dist/a.tar.gz"),
        .setFailed (conflictMsg (basename "dist/a.tar.gz"))],
       .failure (.assetConflict (basename "dist/a.tar.gz")) []) ∧
    ∃ s₁ s₂, conflictMsg (basename "dist/a.tar.gz") =
      s₁ ++ (basename "dist/a.tar.gz" ++ s₂) :=
  claim2_deny_overwrite_aborts _ _ "dist/a.tar.gz" ["dist/b.tar.gz"] [] rfl

/-- C3: on a name conflict with overwrite allowed, a name absent from the
release asset snapshot is an unrecoverable inconsistent-state failure;
otherwise the snapshot asset is deleted and the upload retried exactly
once (the per-file trace shows upload, warning, delete, retry upload),
a failed retry aborts the loop, and a successful retry contributes exactly
one URL for that file — so when no other planned file maps to that URL the
final list counts it exactly once, and it is the retry upload's URL. -/
theorem claim3_overwrite_replaces (env : Env) (rel : Release)
    (f : String) (rest acc : List String) (u : String → String)
    (hc : env.upload f 0 = .conflict) :
    (rel.assets.find? (fun x => x.name == basename f) = none →
      (uploadLoop env rel false (f :: rest) acc).2 =
        .failure (.inconsistentState (basename f)) acc) ∧
    (∀ a, rel.assets.find? (fun x => x.name == basename f) = some a →
      env.deleteOk a.id = true →
      (((env.upload f 1 = .conflict ∨ env.upload f 1 = .err) →
        (uploadLoop env rel false (f :: rest) acc).2 =
          .failure (.replaceFailed (basename f)) acc) ∧
      (∀ url, env.upload f 1 = .ok url →
        (fileStep env rel false f).1 =
          [.apiUpload (basename f), .warning (overwriteWarning (basename f)),
           .apiDelete a.id, .apiUpload (basename f)] ∧
        ((∀ g ∈ rest, (fileStep env rel false g).2 = .ok (u g)) →
          (uploadLoop env rel false (f :: rest) acc).2 =
            .success (acc ++ url :: rest.map u) ∧
          (url ∉ acc → (∀ g ∈ rest, u g ≠ url) →
            (acc ++ url :: rest.map u).count url = 1))))) := by
  constructor
  · intro hfind
    have hstep : fileStep env rel false f =
        ([.apiUpload (basename f), .warning (overwriteWarning (basename f))],
         .error (.inconsistentState (basename f))) := by
      simp [fileStep, hc, hfind]
    rw [uploadLoop, hstep]
  · intro a hfind hdel
    constructor
    · intro h1
      have hstep : fileStep env rel false f =
          ([.apiUpload (basename f), .warning (overwriteWarning (basename f)),
            .apiDelete a.id, .apiUpload (basename f)],
           .error (.replaceFailed (basename f))) := by
        rcases h1 with h1 | h1 <;> simp [fileStep, hc, hfind, hdel, h1]
      rw [uploadLoop, hstep]
    · intro url hok
      have hstep : fileStep env rel false f =
          ([.apiUpload (basename f), .warning (overwriteWarning (basename f)),
            .apiDelete a.id, .apiUpload (basename f)],
           .ok url) := by
        simp [fileStep, hc, hfind, hdel, hok]
      refine ⟨by rw [hstep], ?_⟩
      intro hrest
      constructor
      · rw [uploadLoop, hstep]
        dsimp only
        rw [uploadLoop_allOk env rel false u rest (acc ++ [url]) hrest]
        simp
      · intro hnacc hnrest
        rw [List.count_append]
        rw [List.count_eq_zero.2 hnacc]
        rw [List.count_cons_self]
        have hmap : (rest.map u).count url = 0 := by
          rw [List.count_eq_zero]
          intro hmem
          obtain ⟨g, hg, hgu⟩ := List.mem_map.1 hmem
          exact hnrest g hg hgu
        rw [hmap]

/-- Witness for C3 at a concrete environment: the first file conflicts,
the snapshot holds the asset, the delete succeeds, the retry succeeds and
the second planned file uploads cleanly; the final list holds the retry
URL exactly once. -/
theorem claim3_witness :
    ((Release.mk 1 "v1" "R" false [⟨9, "a.tar.gz", "https://h/a.tar.gz"⟩]).assets.find?
        (fun x => x.name == basename "dist/a.tar.gz") = none →
      (uploadLoop (Env.mk (fun _ => .notFound) [] (fun _ => []) (fun _ => true)
          (fun p n => if p = "dist/a.tar.gz" then
            (if n = 0 then .conflict else .ok "https://h/new-a.tar.gz")
           else .ok "https://h/b.tar.gz") (fun _ => true))
        (Release.mk 1 "v1" "R" false [⟨9, "a.tar.gz", "https://h/a.tar.gz"⟩]) false
        ["dist/a.tar.gz", "dist/b.tar.gz"] []).2 =
        .failure (.inconsistentState (basename "dist/a.tar.gz")) []) ∧
    (∀ a, (Release.mk 1 "v1" "R" false
        [⟨9, "a.tar.gz", "https://h/a.tar.gz"⟩]).assets.find?
          (fun x => x.name == basename "dist/a.tar.gz") = some a →
      (Env.mk (fun _ => .notFound) [] (fun _ => []) (fun _ => true)
          (fun p n => if p = "dist/a.tar.gz" then
            (if n = 0 then .conflict else .ok "https://h/new-a.tar.gz")
           else .ok "https://h/b.tar.gz") (fun _ => true)).deleteOk a.id = true →
      ((((Env.mk (fun _ => .notFound) [] (fun _ => []) (fun _ => true)
          (fun p n => if p = "dist/a.tar.gz" then
            (if n = 0 then .conflict else .ok "https://h/new-a.tar.gz")
           else .ok "https://h/b.tar.gz") (fun _ => true)).upload "dist/a.tar.gz" 1 =
            .conflict ∨
        (Env.mk (fun _ => .notFound) [] (fun _ => []) (fun _ => true)
          (fun p n => if p = "dist/a.tar.gz" then
            (if n = 0 then .conflict else .ok "https://h/new-a.tar.gz")
           else .ok "https://h/b.tar.gz") (fun _ => true)).upload "dist/a.tar.gz" 1 =
            .err) →
        (uploadLoop (Env.mk (fun _ => .notFound) [] (fun _ => []) (fun _ => true)
            (fun p n => if p = "dist/a.tar.gz" then
              (if n = 0 then .conflict else .ok "https://h/new-a.tar.gz")
             else .ok "https://h/b.tar.gz") (fun _ => true))
          (Release.mk 1 "v1" "R" false [⟨9, "a.tar.gz", "https://h/a.tar.gz"⟩]) false
          ["dist/a.tar.gz", "dist/b.tar.gz"] []).2 =
          .failure (.replaceFailed (basename "dist/a.tar.gz")) []) ∧
      (∀ url, (Env.mk (fun _ => .notFound) [] (fun _ => []) (fun _ => true)
          (fun p n => if p = "dist/a.tar.gz" then
            (if n = 0 then .conflict else .ok "https://h/new-a.tar.gz")
           else .ok "https://h/b.tar.gz") (fun _ => true)).upload "dist/a.tar.gz" 1 =
            .ok url →
        (fileStep (Env.mk (fun _ => .notFound) [] (fun _ => []) (fun _ => true)
            (fun p n => if p = "dist/a.tar.gz" then
              (if n = 0 then .conflict else .ok "https://h/new-a.tar.gz")
             else .ok "https://h/b.tar.gz") (fun _ => true))
          (Release.mk 1 "v1" "R" false [⟨9, "a.tar.gz", "https://h/a.tar.gz"⟩]) false
          "dist/a.tar.gz").1 =
          [.apiUpload (basename "dist/a.tar.gz"),
           .warning (overwriteWarning (basename "dist/a.tar.gz")),
           .apiDelete a.id, .apiUpload (basename "dist/a.tar.gz")] ∧
        ((∀ g ∈ ["dist/b.tar.gz"],
            (fileStep (Env.mk (fun _ => .notFound) [] (fun _ => []) (fun _ => true)
              (fun p n => if p = "dist/a.tar.gz" then
                (if n = 0 then .conflict else .ok "https://h/new-a.tar.gz")
               else .ok "https://h/b.tar.gz") (fun _ => true))
              (Release.mk 1 "v1" "R" false [⟨9, "a.tar.gz", "https://h/a.tar.gz"⟩])
              false g).2 = .ok ((fun _ => "https://h/b.tar.gz") g)) →
          (uploadLoop (Env.mk (fun _ => .notFound) [] (fun _ => []) (fun _ => true)
              (fun p n => if p = "dist/a.tar.gz" then
                (if n = 0 then .conflict else .ok "https://h/new-a.tar.gz")
               else .ok "https://h/b.tar.gz") (fun _ => true))
            (Release.mk 1 "v1" "R" false [⟨9, "a.tar.gz", "https://h/a.tar.gz"⟩]) false
            ["dist/a.tar.gz", "dist/b.tar.gz"] []).2 =
            .success ([] ++ url ::
              ["dist/b.tar.gz"].map (fun _ => "https://h/b.tar.gz")) ∧
          (url ∉ ([] : List String) →
            (∀ g ∈ ["dist/b.tar.gz"], (fun _ => "https://h/b.tar.gz") g ≠ url) →
            (([] : List String) ++ url ::
              ["dist/b.tar.gz"].map (fun _ => "https://h/b.tar.gz")).count url =
              1))))) :=
  claim3_overwrite_replaces _ _ "dist/a.tar.gz" ["dist/b.tar.gz"] []
    (fun _ => "https://h/b.tar.gz") rfl

/-- C6: every successful post-resolution run sets the `download_urls`
output to exactly one URL per file of the deduplicated upload plan, one
per successful per-file step, in plan order. -/
theorem claim6_output_order (env : Env) (rel : Release) (d : Bool)
    (pats : List String) (tr : List Event) (urls : List String)
    (hrun : runUpload env (some rel) d pats = (tr, .success urls)) :
    ∃ us, List.Forall₂ (fun f url => (fileStep env rel d f).2 = .ok url)
        (jsDedup (collectFiles env pats).2) us ∧
      urls = us ∧ Event.setOutput urls ∈ tr := by
  by_cases hemp : (jsDedup (collectFiles env pats).2).isEmpty = true
  · rw [runUpload_of_empty env (some rel) d pats hemp] at hrun
    have h2 := congrArg Prod.snd hrun
    simp at h2
  · rw [Bool.not_eq_true] at hemp
    rcases hu : (uploadLoop env rel d (jsDedup (collectFiles env pats).2) []).2 with
      ⟨e2, pu2⟩ | urls2
    · rw [runUpload_of_loop_failure env rel d pats e2 pu2 hemp hu] at hrun
      have h2 := congrArg Prod.snd hrun
      simp at h2
    · rw [runUpload_of_loop_success env rel d pats urls2 hemp hu] at hrun
      have h2 := congrArg Prod.snd hrun
      simp only at h2
      injection h2 with h3
      subst h3
      have h1 := congrArg Prod.fst hrun
      simp only at h1
      obtain ⟨us, hall, hurls⟩ := uploadLoop_success_shape env rel d _ [] urls2 hu
      simp only [List.nil_append] at hurls
      refine ⟨us, hall, hurls, ?_⟩
      rw [← h1]
      simp

/-- Witness for C6: one pattern matching dist/a.tar.gz and dist/b.tar.gz
with no existing assets produces exactly the two URLs in that order. -/
theorem claim6_witness :
    ∃ us, List.Forall₂
        (fun f url =>
          (fileStep (Env.mk (fun _ => .notFound) []
              (fun _ => ["dist/a.tar.gz", "dist/b.tar.gz"]) (fun _ => true)
              (fun p _ => if p = "dist/a.tar.gz" then .ok "https://h/a.tar.gz"
                else .ok "https://h/b.tar.gz") (fun _ => true))
            ⟨1, "v1", "R", false, []⟩ false f).2 = .ok url)
        (jsDedup (collectFiles (Env.mk (fun _ => .notFound) []
            (fun _ => ["dist/a.tar.gz", "dist/b.tar.gz"]) (fun _ => true)
            (fun p _ => if p = "dist/a.tar.gz" then .ok "https://h/a.tar.gz"
              else .ok "https://h/b.tar.gz") (fun _ => true))
          ["dist/*.tar.gz"]).2) us ∧
      ["https://h/a.tar.gz", "https://h/b.tar.gz"] = us ∧
      Event.setOutput ["https://h/a.tar.gz", "https://h/b.tar.gz"] ∈
        [Event.apiUpload (basename "dist/a.tar.gz"),
         Event.apiUpload (basename "dist/b.tar.gz"),
         Event.setOutput ["https://h/a.tar.gz", "https://h/b.tar.gz"]] :=
  claim6_output_order
    (Env.mk (fun _ => .notFound) []
      (fun _ => ["dist/a.tar.gz", "dist/b.tar.gz"]) (fun _ => true)
      (fun p _ => if p = "dist/a.tar.gz" then .ok "https://h/a.tar.gz"
        else .ok "https://h/b.tar.gz") (fun _ => true))
    ⟨1, "v1", "R", false, []⟩ false ["dist/*.tar.gz"]
    [Event.apiUpload (basename "dist/a.tar.gz"),
     Event.apiUpload (basename "dist/b.tar.gz"),
     Event.setOutput ["https://h/a.tar.gz", "https://h/b.tar.gz"]]
    ["https://h/a.tar.gz", "https://h/b.tar.gz"]
    (by
      have hcol : collectFiles (Env.mk (fun _ => .notFound) []
          (fun _ => ["dist/a.tar.gz", "dist/b.tar.gz"]) (fun _ => true)
          (fun p _ => if p = "dist/a.tar.gz" then .ok "https://h/a.tar.gz"
            else .ok "https://h/b.tar.gz") (fun _ => true))
          ["dist/*.tar.gz"] = ([], ["dist/a.tar.gz", "dist/b.tar.gz"]) := rfl
      have hded : jsDedup ["dist/a.tar.gz", "dist/b.tar.gz"] =
          ["dist/a.tar.gz", "dist/b.tar.gz"] := by
        simp [jsDedup]
      have hemp : (jsDedup (collectFiles (Env.mk (fun _ => .notFound) []
          (fun _ => ["dist/a.tar.gz", "dist/b.tar.gz"]) (fun _ => true)
          (fun p _ => if p = "dist/a.tar.gz" then .ok "https://h/a.tar.gz"
            else .ok "https://h/b.tar.gz") (fun _ => true))
          ["dist/*.tar.gz"]).2).isEmpty = false := by
        rw [hcol]
        dsimp only
        rw [hded]
        rfl
      have hu2 : (uploadLoop (Env.mk (fun _ => .notFound) []
          (fun _ => ["dist/a.tar.gz", "dist/b.tar.gz"]) (fun _ => true)
          (fun p _ => if p = "dist/a.tar.gz" then .ok "https://h/a.tar.gz"
            else .ok "https://h/b.tar.gz") (fun _ => true))
          ⟨1, "v1", "R", false, []⟩ false
          (jsDedup (collectFiles (Env.mk (fun _ => .notFound) []
            (fun _ => ["dist/a.tar.gz", "dist/b.tar.gz"]) (fun _ => true)
            (fun p _ => if p = "dist/a.tar.gz" then .ok "https://h/a.tar.gz"
              else .ok "https://h/b.tar.gz") (fun _ => true))
            ["dist/*.tar.gz"]).2) []).2 =
          .success ["https://h/a.tar.gz", "https://h/b.tar.gz"] := by
        rw [hcol]
        dsimp only
        rw [hded]
        simp [uploadLoop, fileStep]
      rw [runUpload_of_loop_success _ _ false _ _ hemp hu2]
      rw [hcol]
      dsimp only
      rw [hded]
      simp [dupEvents, hcol, hded, uploadLoop, fileStep, basename])

/-- C10: overwrite denial is enabled exactly for the boolean true or the
exact string true; every other raw value (including True, TRUE, 1, yes,
the empty string, or an absent value) behaves as denial off, in which case
a conflicting upload takes the delete-and-replace path: the snapshot asset
is deleted and the retried upload's URL is returned for the file. -/
theorem claim10_deny_overwrite_flag (v : RawInput) :
    (denyOverwriteBool v = true ↔ (v = .bool true ∨ v = .str "true")) ∧
    denyOverwriteBool (.str "True") = false ∧
    denyOverwriteBool (.str "TRUE") = false ∧
    denyOverwriteBool (.str "1") = false ∧
    denyOverwriteBool (.str "yes") = false ∧
    denyOverwriteBool (.str "") = false ∧
    denyOverwriteBool .undef = false ∧
    (denyOverwriteBool v = false →
      ∀ (env : Env) (rel : Release) (f : String) (a : Asset) (url : String),
        env.upload f 0 = .conflict →
        rel.assets.find? (fun x => x.name == basename f) = some a →
        env.deleteOk a.id = true →
        env.upload f 1 = .ok url →
        (fileStep env rel (denyOverwriteBool v) f).2 = .ok url ∧
        Event.apiDelete a.id ∈ (fileStep env rel (denyOverwriteBool v) f).1) := by
  refine ⟨?_, by decide, by decide, by decide, by decide, by decide, by decide, ?_⟩
  · rcases v with s | b | _
    · simp [denyOverwriteBool]
    · cases b <;> simp [denyOverwriteBool]
    · simp [denyOverwriteBool]
  · intro hfalse env rel f a url hc hfind hdel hok
    rw [hfalse]
    have hstep : fileStep env rel false f =
        ([.apiUpload (basename f), .warning (overwriteWarning (basename f)),
          .apiDelete a.id, .apiUpload (basename f)], .ok url) := by
      simp [fileStep, hc, hfind, hdel, hok]
    rw [hstep]
    exact ⟨rfl, by simp⟩

/-- Witness for C10 at the string value yes: denial is off and a conflict
is reconciled by delete and retry. -/
theorem claim10_witness :
    (denyOverwriteBool (.str "yes") = true ↔
      (RawInput.str "yes" = .bool true ∨ RawInput.str "yes" = .str "true")) ∧
    denyOverwriteBool (.str "True") = false ∧
    denyOverwriteBool (.str "TRUE") = false ∧
    denyOverwriteBool (.str "1") = false ∧
    denyOverwriteBool (.str "yes") = false ∧
    denyOverwriteBool (.str "") = false ∧
    denyOverwriteBool .undef = false ∧
    (denyOverwriteBool (.str "yes") = false →
      ∀ (env : Env) (rel : Release) (f : String) (a : Asset) (url : String),
        env.upload f 0 = .conflict →
        rel.assets.find? (fun x => x.name == basename f) = some a →
        env.deleteOk a.id = true →
        env.upload f 1 = .ok url →
        (fileStep env rel (denyOverwriteBool (.str "yes")) f).2 = .ok url ∧
        Event.apiDelete a.id ∈
          (fileStep env rel (denyOverwriteBool (.str "yes")) f).1) :=
  claim10_deny_overwrite_flag (.str "yes")
